import Mathlib

/-!
Verification of the messaging / presence / unread-tracking core of the
AI-workspace team-communication backend.

The Python services are shallowly embedded as pure Lean functions over explicit
state records:

- database tables become lists of record rows (UUID primary keys are modeled as
  Nat surrogates, uuid4 generation as caller-supplied fresh ids; datetimes as
  Nat instants);
- the in-memory Socket.IO presence dictionaries become association lists;
- fallible code (ValueError, MultipleResultsFound, AttributeError) returns
  Except, with rollback semantics modeled by returning the unchanged store;
- post-commit push-notification calls are modeled as the list of dispatch
  records the code would hand to the notification gateway.

Sources embedded (paths relative to the repository root):
  app/services/topic/topic_reaction_service.py
  app/services/direct_message_service.py
  app/services/chat/chat_service.py
  app/api/routes/users_complete.py
  app/services/socketio_service.py
  app/services/topic/topic_message_service.py
  app/services/topic/topic_management_service.py
  app/schemas/channel.py
  app/models/channel.py, app/models/user.py
  app/utils/ai_agent_parser.py
-/

namespace AIWorkspace

/-! ## Data model (app/models/channel.py, app/models/user.py) -/

/-- User row (app/models/user.py).  role_admin models role == UserRole.ADMIN.
Presence fields is_online / last_seen_at are mutated by the Socket.IO handlers. -/
structure User where
  id : Nat
  email : String
  full_name : String
  role_admin : Bool
  is_superuser : Bool
  is_active : Bool
  is_online : Bool
  last_seen_at : Option Nat
deriving Repr, DecidableEq

/-- Topic row (app/models/channel.py, class Topic). -/
structure Topic where
  id : Nat
  channel_id : Nat
  name : String
  created_by : Nat
  updated_at : Option Nat
  is_active : Bool
  is_pinned : Bool
deriving Repr, DecidableEq

/-- TopicMember row (app/models/channel.py lines 65-79).  The table has exactly
these columns; in particular there is NO unread_count column — last_read_at is
the only durable read-state field. -/
structure TopicMember where
  id : Nat
  topic_id : Nat
  user_id : Nat
  joined_at : Nat
  last_read_at : Option Nat
  is_active : Bool
deriving Repr, DecidableEq

/-- TopicMessage row (app/models/channel.py, class TopicMessage). -/
structure TopicMessage where
  id : Nat
  topic_id : Nat
  sender_id : Option Nat
  content : String
  reply_to_id : Option Nat
  is_edited : Bool
  is_deleted : Bool
  created_at : Nat
deriving Repr, DecidableEq

/-- MessageMention row (app/models/channel.py, class MessageMention). -/
structure MessageMention where
  id : Nat
  message_id : Nat
  mentioned_user_id : Nat
  is_read : Bool
deriving Repr, DecidableEq

/-- MessageReaction row (app/models/channel.py, class MessageReaction): topic
message reactions. -/
structure MessageReaction where
  id : Nat
  message_id : Nat
  user_id : Nat
  emoji : String
deriving Repr, DecidableEq

/-- DirectMessageReaction row (app/models/direct_message.py): reactions on
direct messages, same columns as MessageReaction. -/
structure DirectMessageReaction where
  id : Nat
  message_id : Nat
  user_id : Nat
  emoji : String
deriving Repr, DecidableEq

/-- TopicMessageAttachment row.  The model class is referenced by the services
but absent from app/models in the tree; columns are taken from the migration
alembic/versions/3030c40d141d_add_topic_message_attachments_table.py. -/
structure TopicMessageAttachment where
  id : Nat
  message_id : Nat
  url : String
  filename : String
  size : Nat
  mime_type : String
deriving Repr, DecidableEq

/-- PushSubscription row (app/models/user.py): one per device/endpoint, a user
may hold several. -/
structure PushSubscription where
  id : Nat
  user_id : Nat
  endpoint : String
deriving Repr, DecidableEq

/-- Read receipt row for group/direct chat (app/models/chat.py,
MessageReadReceipt): marks one message read by one user. -/
structure ReadReceipt where
  message_id : Nat
  user_id : Nat
deriving Repr, DecidableEq

/-- ChatRoomMember row, restricted to the fields the mark-read flow touches
(app/models/chat.py). -/
structure ChatRoomMember where
  room_id : Nat
  user_id : Nat
  is_admin : Bool
  is_active : Bool
  last_read_at : Option Nat
deriving Repr, DecidableEq

/-- ChatMessage row, restricted to the fields the unread derivation reads
(app/models/chat.py). -/
structure ChatMessage where
  id : Nat
  room_id : Nat
  sender_id : Nat
  deleted_at : Option Nat
deriving Repr, DecidableEq

/-- Relational store backing the topic services: one list per table. -/
structure TopicStore where
  users : List User
  topics : List Topic
  members : List TopicMember
  messages : List TopicMessage
  attachments : List TopicMessageAttachment
  mentions : List MessageMention
  reactions : List MessageReaction
  subscriptions : List PushSubscription
deriving Repr, DecidableEq

/-- Payload of the TopicMessageCreate attachments field (app/schemas/channel.py,
class AttachmentData). -/
structure AttachmentData where
  url : String
  filename : String
  size : Nat
  mime_type : String
deriving Repr, DecidableEq

/-- One push-notification dispatch handed to
notification_service.send_message_notification (app/services/notification_service.py):
the subscription endpoint plus the message-preview payload. -/
structure Dispatch where
  endpoint : String
  sender_name : String
  preview : String
  topic_name : String
deriving Repr, DecidableEq

/-- Decidable equality for Except results, so that concrete runs can be checked
by evaluation. -/
instance exceptDecEq {ε α : Type} [DecidableEq ε] [DecidableEq α] :
    DecidableEq (Except ε α) := fun a b =>
  match a, b with
  | Except.error e1, Except.error e2 =>
    if h : e1 = e2 then Decidable.isTrue (h ▸ rfl)
    else Decidable.isFalse (fun hc => h (Except.error.inj hc))
  | Except.error _, Except.ok _ => Decidable.isFalse (fun hc => Except.noConfusion hc)
  | Except.ok _, Except.error _ => Decidable.isFalse (fun hc => Except.noConfusion hc)
  | Except.ok a1, Except.ok a2 =>
    if h : a1 = a2 then Decidable.isTrue (h ▸ rfl)
    else Decidable.isFalse (fun hc => h (Except.ok.inj hc))

/-! ## Reaction services -/

/-- TopicReactionService.add_reaction (app/services/topic/topic_reaction_service.py
lines 16-59).  Looks up the single row for (message_id, user_id) via
scalar_one_or_none; if present it rewrites that row's emoji in place (when it
differs), else it inserts a fresh row.  scalar_one_or_none raises
MultipleResultsFound when more than one row matches, modeled as the none
result. -/
def topic_add_reaction (rs : List MessageReaction) (nid m u : Nat) (e : String) :
    Option (List MessageReaction) :=
  match rs.filter (fun r => r.message_id == m && r.user_id == u) with
  | [] => some (rs ++ [⟨nid, m, u, e⟩])
  | [r0] => some (rs.map (fun x => if x.id == r0.id then { x with emoji := e } else x))
  | _ => none

/-- DirectMessageService.add_reaction (app/services/direct_message_service.py
lines 487-530).  Unlike the topic service, the existence lookup filters on
(message_id, user_id, emoji): a row is inserted whenever this exact triple is
absent, so a second different emoji for the same (message, user) adds a second
row. -/
def dm_add_reaction (rs : List DirectMessageReaction) (nid m u : Nat) (e : String) :
    Option (List DirectMessageReaction) :=
  match rs.filter (fun r => r.message_id == m && r.user_id == u && r.emoji == e) with
  | [] => some (rs ++ [⟨nid, m, u, e⟩])
  | [_] => some rs
  | _ => none

/-- Number of topic-reaction rows held by the pair (message m, user u). -/
def reactionPairCount (rs : List MessageReaction) (m u : Nat) : Nat :=
  (rs.filter (fun r => r.message_id == m && r.user_id == u)).length

/-- Number of direct-message-reaction rows held by the pair (message m, user u). -/
def dmPairCount (rs : List DirectMessageReaction) (m u : Nat) : Nat :=
  (rs.filter (fun r => r.message_id == m && r.user_id == u)).length

/-- Invariant claimed by the spec: at most one reaction row per
(message, user) pair. -/
def atMostOnePerPair (rs : List MessageReaction) : Prop :=
  rs.Pairwise (fun a b => a.message_id ≠ b.message_id ∨ a.user_id ≠ b.user_id)

instance (rs : List MessageReaction) : Decidable (atMostOnePerPair rs) := by
  unfold atMostOnePerPair
  exact List.instDecidablePairwise rs

/-! ## Chat mark-as-read (app/services/chat/chat_service.py lines 652-703) -/

/-- Receipt-insertion loop of ChatService.mark_messages_as_read: for each id in
order, a receipt row is inserted unless one already exists for
(message_id, user_id); the lookup sees rows added earlier in the same call
(session autoflush). -/
def insert_read_receipts (receipts : List ReadReceipt) (user : Nat) (ids : List Nat) :
    List ReadReceipt :=
  ids.foldl (fun acc mid =>
    if acc.any (fun r => r.message_id == mid && r.user_id == user) then acc
    else acc ++ [⟨mid, user⟩]) receipts

/-- ChatService.mark_messages_as_read: inserts the missing receipts, then stamps
the caller's membership last_read_at with the current time, in one commit. -/
def mark_messages_as_read (receipts : List ReadReceipt) (member : ChatRoomMember)
    (user : Nat) (ids : List Nat) (now : Nat) : List ReadReceipt × ChatRoomMember :=
  (insert_read_receipts receipts user ids, { member with last_read_at := some now })

/-- Unread derivation for chat rooms (app/api/routes/users_complete.py lines
219-231): number of non-deleted messages in the room sent by the other user
whose id has no read receipt by the current user. -/
def chat_unread_count (msgs : List ChatMessage) (receipts : List ReadReceipt)
    (room user other : Nat) : Nat :=
  (msgs.filter (fun msg => msg.room_id == room && msg.sender_id == other &&
      msg.deleted_at == none &&
      !(receipts.any (fun r => r.message_id == msg.id && r.user_id == user)))).length

/-! ## Socket.IO presence tracker (app/services/socketio_service.py) -/

/-- Python dict lookup. -/
def dictGet {α : Type} (d : List (Nat × α)) (k : Nat) : Option α :=
  (d.find? (fun kv => kv.1 == k)).map (fun kv => kv.2)

/-- Python dict assignment: overwrites the binding for k, or appends it. -/
def dictSet {α : Type} (d : List (Nat × α)) (k : Nat) (v : α) : List (Nat × α) :=
  if d.any (fun kv => kv.1 == k) then d.map (fun kv => if kv.1 == k then (k, v) else kv)
  else d ++ [(k, v)]

/-- Python del d[k]. -/
def dictDel {α : Type} (d : List (Nat × α)) (k : Nat) : List (Nat × α) :=
  d.filter (fun kv => kv.1 != k)

/-- In-memory presence state of one server process plus the persisted user rows
it mutates and the user_status_change events it broadcasts.
active_connections maps sid to user_id; user_rooms maps user_id to the set of
room/topic ids the user is viewing (module-level dicts, lines 74-78). -/
structure PresenceState where
  active_connections : List (Nat × Nat)
  user_rooms : List (Nat × List Nat)
  users : List User
  status_events : List (Nat × Bool)
deriving Repr, DecidableEq

/-- Database write shared by connect/disconnect: load the user row by id and set
is_online plus last_seen_at (no-op when the row is absent). -/
def setOnline (users : List User) (u : Nat) (b : Bool) (now : Nat) : List User :=
  users.map (fun x => if x.id == u then { x with is_online := b, last_seen_at := some now } else x)

/-- Stored online flag of a user (false when the row is absent). -/
def isOnline (users : List User) (u : Nat) : Bool :=
  match users.find? (fun x => x.id == u) with
  | some x => x.is_online
  | none => false

/-- Stored last_seen_at of a user. -/
def lastSeenAt (users : List User) (u : Nat) : Option Nat :=
  match users.find? (fun x => x.id == u) with
  | some x => x.last_seen_at
  | none => none

/-- connect handler (socketio_service.py lines 81-140), after successful token
authentication of user uid (lines 84-97, modeled by the caller passing the
authenticated id).  Registers the connection, RESETS the user's room set to the
empty set, marks the user online in storage and broadcasts an online status
event. -/
def sio_connect (st : PresenceState) (sid uid now : Nat) : PresenceState :=
  { st with
    active_connections := dictSet st.active_connections sid uid,
    user_rooms := dictSet st.user_rooms uid [],
    users := setOnline st.users uid true now,
    status_events := st.status_events ++ [(uid, true)] }

/-- disconnect handler (socketio_service.py lines 143-180).  Whenever the sid is
attributed to a user, it unconditionally marks that user offline with a
last_seen_at stamp, broadcasts an offline status event, discards the user's
whole room set and removes the connection — with no check whether other live
connections of the same user remain. -/
def sio_disconnect (st : PresenceState) (sid now : Nat) : PresenceState :=
  match dictGet st.active_connections sid with
  | none => st
  | some uid =>
    { st with
      users := setOnline st.users uid false now,
      status_events := st.status_events ++ [(uid, false)],
      user_rooms := dictDel st.user_rooms uid,
      active_connections := dictDel st.active_connections sid }

/-- join_room handler (socketio_service.py lines 183-220): adds the room id to
the set tracked for the connection's user (idempotent). -/
def sio_join_room (st : PresenceState) (sid room : Nat) : PresenceState :=
  match dictGet st.active_connections sid with
  | none => st
  | some uid =>
    let cur := (dictGet st.user_rooms uid).getD []
    { st with user_rooms :=
        dictSet st.user_rooms uid (if room ∈ cur then cur else cur ++ [room]) }

/-- is-active-in-room test used by send_message (lines 312-316): the room id is
in the user's tracked room set. -/
def activeInRoom (rooms : List (Nat × List Nat)) (u room : Nat) : Bool :=
  match dictGet rooms u with
  | some rs => rs.contains room
  | none => false

/-! ## Topic message creation (app/services/topic/topic_message_service.py) -/

/-- Active membership rows of user u in topic t (the WHERE clause of the
membership queries in create_message). -/
def findActiveMember (members : List TopicMember) (t u : Nat) : List TopicMember :=
  members.filter (fun mb => mb.topic_id == t && mb.user_id == u && mb.is_active)

/-- Error outcomes of create_message: notMember is the ValueError raised at line
68 and surfaced as HTTP 403 by the route; multipleRows is the
MultipleResultsFound that scalar_one_or_none raises for a duplicated membership
row, surfaced as HTTP 500. -/
inductive CmError where
  | notMember
  | multipleRows
deriving Repr, DecidableEq

/-- Topic name used in the notification payload (topic_message_service.py lines
141-148): the topic's name, or the fallback when the row is absent. -/
def topicNameOf (topics : List Topic) (t : Nat) : String :=
  match topics.find? (fun x => x.id == t) with
  | some tp => tp.name
  | none => "Unknown Topic"

/-- Sender display name attached to the notification (line 220): the loaded
sender relationship's full_name. -/
def senderNameOf (users : List User) (s : Nat) : String :=
  match users.find? (fun x => x.id == s) with
  | some x => x.full_name
  | none => ""

/-- Receiver selection of the post-commit notification block
(topic_message_service.py lines 196-204): user ids of ALL active members of the
topic other than the sender — with no check of who is currently viewing the
room. -/
def rest_receiver_ids (members : List TopicMember) (t s : Nat) : List Nat :=
  (members.filter (fun x => x.topic_id == t && x.is_active && x.user_id != s)).map
    (fun x => x.user_id)

/-- Post-commit notification block of create_message (lines 206-230): when the
receiver list is non-empty, one dispatch is built per push subscription whose
user is a receiver, carrying the FULL message content as preview (line 221
passes message_content untruncated). -/
def rest_dispatches (members : List TopicMember) (subs : List PushSubscription)
    (senderName topicName : String) (t : Nat) (c : String) (s : Nat) : List Dispatch :=
  if (rest_receiver_ids members t s).isEmpty then []
  else (subs.filter (fun x => (rest_receiver_ids members t s).contains x.user_id)).map
    (fun x => Dispatch.mk x.endpoint senderName c topicName)

/-- TopicMessageService.create_message (topic_message_service.py lines 46-232).
Verifies active membership of the sender, inserts the message row, advances the
sender's own last_read_at to the new message's created_at (the companion
assignment member.unread_count = 0 at line 88 writes a plain Python instance
attribute — TopicMember has no such column — and persists nothing), inserts
attachment and mention rows, bumps the topic's updated_at, commits, and then
(post-commit, lines 195-230) collects every ACTIVE member other than the sender
— with no presence check — and builds one notification dispatch per push
subscription of those members, whose preview is the full message content.
The at-name extraction of lines 104-119 is abstracted by the mentionedIds
parameter (the union of the request's mentioned_user_ids and the extracted
names); fresh uuid4 primary keys are modeled as freshId, freshId+1, ....
On error the unchanged store is returned (rollback). -/
def create_message (db : TopicStore) (topic_id : Nat) (content : String)
    (reply_to_id : Option Nat) (atts : List AttachmentData) (mentionedIds : List Nat)
    (sender_id : Nat) (freshId : Nat) (now : Nat) :
    TopicStore × Except CmError (TopicMessage × List Dispatch) :=
  match findActiveMember db.members topic_id sender_id with
  | [] => (db, Except.error CmError.notMember)
  | mb :: mbtail =>
    if mbtail.isEmpty then
      let msg : TopicMessage :=
        ⟨freshId, topic_id, some sender_id, content, reply_to_id, false, false, now⟩
      let members1 := db.members.map (fun x =>
        if x.id == mb.id then { x with last_read_at := some msg.created_at } else x)
      let attRows := atts.enum.map (fun p =>
        TopicMessageAttachment.mk (freshId + 1 + p.1) msg.id p.2.url p.2.filename
          p.2.size p.2.mime_type)
      let mentionRows := (mentionedIds.filter (fun uid =>
          members1.any (fun x => x.topic_id == topic_id && x.user_id == uid && x.is_active))).enum.map
        (fun p => MessageMention.mk (freshId + 1 + atts.length + p.1) msg.id p.2 false)
      let topics1 := db.topics.map (fun t =>
        if t.id == topic_id then { t with updated_at := some now } else t)
      let dispatches := rest_dispatches members1 db.subscriptions
        (senderNameOf db.users sender_id) (topicNameOf db.topics topic_id)
        topic_id content sender_id
      let db1 : TopicStore := { db with
        topics := topics1,
        members := members1,
        messages := db.messages ++ [msg],
        attachments := db.attachments ++ attRows,
        mentions := db.mentions ++ mentionRows }
      (db1, Except.ok (msg, dispatches))
    else (db, Except.error CmError.multipleRows)

/-- Validation of the POST body (app/schemas/channel.py lines 168-173,
TopicMessageCreate): content is declared with min_length=1 unconditionally;
the attachments field carries no constraint and does not relax the content
rule. -/
def topic_message_create_valid (content : String) (atts : List AttachmentData) : Bool :=
  decide (1 ≤ content.length)

/-! ## Socket.IO send_message fan-out (socketio_service.py lines 262-410) -/

/-- Error outcome of the send_message handler loop: reading
member.unread_count at line 320 raises AttributeError because TopicMember
(app/models/channel.py lines 65-79) defines no unread_count column and the
freshly loaded ORM instance has no such attribute; the handler's generic
except catches it, so nothing is committed and no notification is sent. -/
inductive SioError where
  | attributeError
deriving Repr, DecidableEq

/-- Member loop of send_message (lines 307-321): members are scanned in order;
the sender is skipped; a member active in the topic room is left alone; for the
first member NOT active in the room the unread increment raises (see SioError).
The loop therefore completes only when every other member is active, with an
empty offline list. -/
def sio_offline_scan (ms : List TopicMember) (rooms : List (Nat × List Nat))
    (sender t : Nat) : Except SioError (List Nat) :=
  match ms with
  | [] => Except.ok []
  | mb :: rest =>
    if mb.user_id == sender then sio_offline_scan rest rooms sender t
    else if activeInRoom rooms mb.user_id t then sio_offline_scan rest rooms sender t
    else Except.error SioError.attributeError

/-- Message preview used by the socket path (lines 337 and 387): the first 100
characters of the content, with no ellipsis appended. -/
def sio_preview (content : String) : String :=
  content.take 100

/-- send_message handler, topic branch (socketio_service.py lines 283-347).
Loads ALL membership rows of the topic (no is_active filter, lines 300-303),
runs the offline scan, commits the unread increments and sends one push per
subscription of each offline member — but the scan aborts with AttributeError
at the first non-active member, so the store is never changed and the dispatch
list is empty in every outcome. -/
def socket_send_message (db : TopicStore) (rooms : List (Nat × List Nat))
    (sender topic_id : Nat) (content : String) :
    TopicStore × Except SioError (List Dispatch) :=
  let ms := db.members.filter (fun mb => mb.topic_id == topic_id)
  match sio_offline_scan ms rooms sender topic_id with
  | Except.error e => (db, Except.error e)
  | Except.ok offline =>
    let senderName := match db.users.find? (fun x => x.id == sender) with
      | some x => if x.full_name != "" then x.full_name else x.email
      | none => "Someone"
    let ds := match db.topics.find? (fun t => t.id == topic_id) with
      | none => []
      | some tp =>
        if offline.isEmpty then []
        else ((offline.map (fun uid =>
          (db.subscriptions.filter (fun s => s.user_id == uid)).map
            (fun s => Dispatch.mk s.endpoint senderName (sio_preview content) tp.name))).flatten)
    (db, Except.ok ds)

/-- mark_as_read handler, topic branch (socketio_service.py lines 503-546):
loads the (topic, user) membership row with scalar_one_or_none and stamps its
last_read_at with the current time (the companion assignment
topic_member.unread_count = 0 writes a plain instance attribute and persists
nothing).  A missing row is a no-op; a duplicated row raises. -/
def socket_mark_as_read (members : List TopicMember) (topic user now : Nat) :
    Option (List TopicMember) :=
  match members.filter (fun mb => mb.topic_id == topic && mb.user_id == user) with
  | [] => some members
  | [mb] => some (members.map (fun x =>
      if x.id == mb.id then { x with last_read_at := some now } else x))
  | _ => none

/-! ## Topic unread derivation (app/services/topic/topic_management_service.py) -/

/-- SQL CASE row test of the unread subquery in get_user_topics (lines 240-265):
a message counts when the member's last_read_at is NULL or the message's
created_at lies strictly after it. -/
def afterLastRead (lastRead : Option Nat) (m : TopicMessage) : Bool :=
  match lastRead with
  | none => true
  | some lr => decide (lr < m.created_at)

/-- Unread count reported by TopicManagementService.get_user_topics for one
topic (lines 230-272): the SUM over ALL message rows of the topic — soft-deleted
rows included, the user's own messages included — of the CASE indicator. -/
def get_user_topics_unread (msgs : List TopicMessage) (t : Nat)
    (lastRead : Option Nat) : Nat :=
  ((msgs.filter (fun m => m.topic_id == t)).map
    (fun m => if afterLastRead lastRead m then 1 else 0)).sum

/-- Modelled from the spec: the observable unread count the specification
prescribes — the number of NON-DELETED messages of the topic created strictly
after the member's last_read_at (NULL meaning everything unread), EXCLUDING
messages sent by the user themselves. -/
def spec_unread_count (msgs : List TopicMessage) (t u : Nat)
    (lastRead : Option Nat) : Nat :=
  (msgs.filter (fun m => m.topic_id == t && !m.is_deleted &&
    m.sender_id != some u && afterLastRead lastRead m)).length

/-- Unread count of the amended claim: every message row of the topic with
last_read_at NULL or created_at strictly greater, regardless of deletion flag
and sender. -/
def amended_unread_count (msgs : List TopicMessage) (t : Nat)
    (lastRead : Option Nat) : Nat :=
  (msgs.filter (fun m => m.topic_id == t && afterLastRead lastRead m)).length

/-! ## Topic management (app/services/topic/topic_management_service.py) -/

/-- TopicManagementService.verify_admin (lines 20-30): the user row exists and
has the ADMIN role or is a superuser. -/
def verify_admin (users : List User) (u : Nat) : Bool :=
  match users.find? (fun x => x.id == u) with
  | some usr => usr.role_admin || usr.is_superuser
  | none => false

/-- TopicManagementService.get_topic_by_id (lines 280-309): the topic row joined
against an active membership row of the requesting user; none when either is
absent or the topic is inactive. -/
def get_topic_by_id (db : TopicStore) (t u : Nat) : Option Topic :=
  match db.topics.find? (fun x => x.id == t && x.is_active) with
  | none => none
  | some tp =>
    if db.members.any (fun mb => mb.topic_id == t && mb.user_id == u && mb.is_active)
    then some tp else none

/-- Step 1 of delete_topic_by_id (lines 398-402): null the self-referential
reply_to_id of every message of the topic, to avoid FK violations. -/
def null_reply_ids (msgs : List TopicMessage) (t : Nat) : List TopicMessage :=
  msgs.map (fun m => if m.topic_id == t then { m with reply_to_id := none } else m)

/-- Ids of the message rows hard-deleted in step 2 of delete_topic_by_id
(lines 404-406): all messages of the topic, taken after the reply_to_id
nulling. -/
def del_message_ids (msgs : List TopicMessage) (t : Nat) : List Nat :=
  ((null_reply_ids msgs t).filter (fun m => m.topic_id == t)).map (fun m => m.id)

/-- TopicManagementService.delete_topic_by_id (lines 356-433).  Raises
ValueError (modeled as the error branch, store unchanged) for a non-admin
caller; returns false when the topic does not exist; otherwise — in a single
transaction — nulls the reply_to_id of the topic's messages, hard-deletes the
messages (the ORM cascade removes their mentions, reactions and attachments),
hard-deletes the membership rows and the topic row, and commits. -/
def delete_topic_by_id (db : TopicStore) (t u : Nat) :
    TopicStore × Except Unit Bool :=
  if !(verify_admin db.users u) then (db, Except.error ())
  else
    match db.topics.find? (fun x => x.id == t) with
    | none => (db, Except.ok false)
    | some _ =>
      let delIds := del_message_ids db.messages t
      let db1 : TopicStore := { db with
        messages := (null_reply_ids db.messages t).filter (fun m => m.topic_id != t),
        mentions := db.mentions.filter (fun x => !(delIds.contains x.message_id)),
        reactions := db.reactions.filter (fun x => !(delIds.contains x.message_id)),
        attachments := db.attachments.filter (fun x => !(delIds.contains x.message_id)),
        members := db.members.filter (fun mb => mb.topic_id != t),
        topics := db.topics.filter (fun x => x.id != t) }
      (db1, Except.ok true)

/-! ## AI agent mention parsing (app/utils/ai_agent_parser.py lines 26-69)

The fixed registry of agent identifiers.  Character classes of the regex are
modeled over ASCII (the inputs the service handles); backslash-s is isPySpace,
backslash-w is isWordChar. -/

/-- AgentType enum (ai_agent_parser.py lines 7-11). -/
inductive AgentType where
  | emailAi
  | searchAi
  | generalAi
deriving Repr, DecidableEq

/-- ASCII whitespace as matched by Python strip and the regex class. -/
def isPySpace (c : Char) : Bool :=
  c == ' ' || c == '\t' || c == '\n' || c == '\r' || c.toNat == 11 || c.toNat == 12

/-- ASCII word character (regex class: alphanumerics and underscore). -/
def isWordChar (c : Char) : Bool :=
  c.isAlphanum || c == '_'

/-- Python str.strip: drop leading and trailing whitespace. -/
def pyStrip (s : List Char) : List Char :=
  ((s.dropWhile isPySpace).reverse.dropWhile isPySpace).reverse

/-- Greedy dot-plus: at least one character, up to (not including) the next
newline; none when the text starts with a newline or is empty. -/
def dotPlus (t : List Char) : Option (List Char) :=
  match t with
  | [] => none
  | c :: _ => if c == '\n' then none else some (t.takeWhile (fun d => d != '\n'))

/-- Backtracking whitespace-plus followed by dot-plus: try the whitespace run of
length j first, then shorter runs down to length one. -/
def spaceBacktrack : Nat → List Char → Option (List Char)
  | 0, _ => none
  | j + 1, t =>
    match dotPlus (t.drop (j + 1)) with
    | some g => some g
    | none => spaceBacktrack j t

/-- Match of the regex tail (whitespace-plus then dot-plus) against t, starting
from the maximal whitespace run. -/
def tailCapture (t : List Char) : Option (List Char) :=
  spaceBacktrack (t.takeWhile isPySpace).length t

/-- Lazy capture of regex group one (word-or-space characters, as few as
possible) such that the tail matches the rest; returns the group and the
dot-plus capture. -/
def groupSearch (acc : List Char) : List Char → Option (List Char × List Char)
  | [] => none
  | c :: cs =>
    if isWordChar c || isPySpace c then
      match tailCapture cs with
      | some g => some (acc ++ [c], g)
      | none => groupSearch (acc ++ [c]) cs
    else none

/-- Normalization applied to the captured agent name (line 50): strip, lower,
remove space characters. -/
def normalizeAgentName (name : List Char) : String :=
  String.mk (((pyStrip name).map Char.toLower).filter (fun c => c != ' '))

/-- Registry lookup (lines 54-58): the map from normalized names to agent
types. -/
def agentKey (s : String) : Option AgentType :=
  if s == "emailai" then some AgentType.emailAi
  else if s == "searchai" then some AgentType.searchAi
  else if s == "generalai" then some AgentType.generalAi
  else none

/-- parse_agent_mention (ai_agent_parser.py lines 26-69): match the pattern
at-sign, lazy word-or-space group, whitespace, dot-plus against the stripped
message; normalize the captured name and look it up in the registry; return the
agent type with the stripped prompt, or none. -/
def parse_agent_mention (message : String) : Option (AgentType × String) :=
  match pyStrip message.data with
  | '@' :: rest =>
    match groupSearch [] rest with
    | none => none
    | some (g1, g2) =>
      match agentKey (normalizeAgentName g1) with
      | none => none
      | some a => some (a, String.mk (pyStrip g2))
  | _ => none

/-- Modelled from the spec (section 4.5) and the claim: a mention should be
detected exactly when the stripped message begins with an at-sign followed by
some prefix that — case-insensitively and ignoring interior spaces — equals a
registry identifier, then whitespace, then a non-empty prompt. -/
def claim_detects_mention (message : String) : Bool :=
  match pyStrip message.data with
  | '@' :: rest =>
    (List.range (rest.length + 1)).any (fun k =>
      decide (1 ≤ k) &&
      (agentKey (normalizeAgentName (rest.take k))).isSome &&
      (match rest.drop k with
       | [] => false
       | d :: ds => isPySpace d && !(((d :: ds).dropWhile isPySpace).isEmpty)))
  | _ => false

/-! ## Concrete fixtures used by witnesses and counterexamples -/

/-- Fixture: a plain member user. -/
def uA : User := ⟨1, "a@x", "A", false, false, true, false, none⟩

/-- Fixture: a second member user. -/
def uB : User := ⟨2, "b@x", "B", false, false, true, false, none⟩

/-- Fixture: an admin user. -/
def uAdm : User := ⟨3, "adm@x", "Adm", true, false, true, false, none⟩

/-- Fixture topic. -/
def tT : Topic := ⟨9, 4, "T", 3, none, true, false⟩

/-- Fixture membership row of uA in tT. -/
def mbA : TopicMember := ⟨11, 9, 1, 0, none, true⟩

/-- Fixture membership row of uB in tT. -/
def mbB : TopicMember := ⟨12, 9, 2, 0, some 10, true⟩

/-- Fixture push subscription of uB. -/
def subB : PushSubscription := ⟨21, 2, "ep"⟩

/-- Fixture store: topic tT with members uA and uB, one subscription for uB. -/
def fixtureStore : TopicStore :=
  ⟨[uA, uB, uAdm], [tT], [mbA, mbB], [], [], [], [], [subB]⟩

/-- Fixture store for the deletion scenario: adds a message with a mention, a
reaction and an attachment, plus a second untouched topic. -/
def fixtureDelStore : TopicStore :=
  ⟨[uA, uB, uAdm],
   [tT, ⟨10, 4, "U", 3, none, true, false⟩],
   [mbA, mbB, ⟨13, 10, 1, 0, none, true⟩],
   [⟨31, 9, some 1, "hello", none, false, false, 5⟩,
    ⟨32, 9, some 2, "reply", some 31, false, false, 6⟩,
    ⟨33, 10, some 1, "other", none, false, false, 7⟩],
   [⟨41, 31, "u", "f", 1, "m"⟩],
   [⟨51, 31, 2, false⟩],
   [⟨61, 31, 2, "up"⟩],
   [subB]⟩

/-- Fixture presence map in which uB is actively viewing topic tT. -/
def roomsBActive : List (Nat × List Nat) := [(2, [9])]

/-- Message content of 150 characters, for the preview-truncation checks. -/
def longContent : String := String.mk (List.replicate 150 'a')

/-- Fixture presence state: no connections yet, one stored user with id 7. -/
def presSt0 : PresenceState :=
  ⟨[], [], [⟨7, "u7@x", "U7", false, false, true, false, none⟩], []⟩

/-! ## Generic list lemmas -/

theorem list_filter_map_swap {α β : Type} (f : α → β) (p : β → Bool) (l : List α) :
    (l.map f).filter p = (l.filter (fun a => p (f a))).map f := by
  induction l with
  | nil => rfl
  | cons a l ih =>
    simp only [List.map_cons, List.filter_cons]
    cases h : p (f a) <;> simp [h, ih]

theorem sum_indicator_eq_length_filter {α : Type} (l : List α) (q : α → Bool) :
    (l.map (fun a => if q a then 1 else 0)).sum = (l.filter q).length := by
  induction l with
  | nil => rfl
  | cons a l ih =>
    simp only [List.map_cons, List.sum_cons, List.filter_cons]
    cases h : q a <;> simp [h, ih, Nat.add_comm]

/-! ## C3: reaction uniqueness -/

theorem reaction_pair_pred_iff (r : MessageReaction) (m u : Nat) :
    (r.message_id == m && r.user_id == u) = true ↔ r.message_id = m ∧ r.user_id = u := by
  simp [Bool.and_eq_true]

/-- C3 (amended): in the topic module, add_reaction keeps at most one reaction
row per (message, user) pair — under that invariant it always succeeds and
leaves exactly one row for the pair, rewriting the emoji in place instead of
appending.  In the direct-message module, however, the lookup is keyed by
(message, user, emoji): starting from a pair with no row, adding two different
emojis in succession leaves two rows for the same (message, user) pair, so the
claimed cross-module invariant fails there. -/
theorem c3_reaction_uniqueness
    (rs : List MessageReaction) (nid m u : Nat) (e : String)
    (hinv : atMostOnePerPair rs) :
    (∃ rs2, topic_add_reaction rs nid m u e = some rs2 ∧
      atMostOnePerPair rs2 ∧ reactionPairCount rs2 m u = 1) ∧
    (∀ ds : List DirectMessageReaction, ∀ nid1 nid2 : Nat, ∀ e1 e2 : String,
      dmPairCount ds m u = 0 → e1 ≠ e2 →
      ∃ ds1 ds2, dm_add_reaction ds nid1 m u e1 = some ds1 ∧
        dm_add_reaction ds1 nid2 m u e2 = some ds2 ∧ dmPairCount ds2 m u = 2) := by
  constructor
  · cases hf : rs.filter (fun r => r.message_id == m && r.user_id == u) with
    | nil =>
      refine ⟨rs ++ [⟨nid, m, u, e⟩], ?_, ?_, ?_⟩
      · simp [topic_add_reaction, hf]
      · unfold atMostOnePerPair at hinv ⊢
        rw [List.pairwise_append]
        refine ⟨hinv, List.pairwise_singleton _ _, ?_⟩
        intro a ha b hb
        have hna : ¬ (a.message_id == m && a.user_id == u) = true := by
          intro hp
          have : a ∈ rs.filter (fun r => r.message_id == m && r.user_id == u) :=
            List.mem_filter.mpr ⟨ha, hp⟩
          rw [hf] at this
          exact absurd this (List.not_mem_nil a)
        rw [List.mem_singleton] at hb
        subst hb
        rw [reaction_pair_pred_iff] at hna
        by_cases hm : a.message_id = m
        · exact Or.inr (fun hu => hna ⟨hm, hu⟩)
        · exact Or.inl hm
      · unfold reactionPairCount
        rw [List.filter_append, hf]
        simp
    | cons r0 tl =>
      cases tl with
      | nil =>
        refine ⟨rs.map (fun x => if x.id == r0.id then { x with emoji := e } else x),
          ?_, ?_, ?_⟩
        · simp [topic_add_reaction, hf]
        · unfold atMostOnePerPair at hinv ⊢
          rw [List.pairwise_map]
          refine hinv.imp ?_
          intro a b hab
          by_cases ha : (a.id == r0.id) = true <;>
            by_cases hb : (b.id == r0.id) = true <;>
              simp [ha, hb] <;> exact hab
        · unfold reactionPairCount
          rw [list_filter_map_swap]
          rw [List.length_map]
          have hcg : rs.filter (fun a =>
              ((if a.id == r0.id then { a with emoji := e } else a).message_id == m &&
               (if a.id == r0.id then { a with emoji := e } else a).user_id == u)) =
              rs.filter (fun r => r.message_id == m && r.user_id == u) := by
            apply List.filter_congr
            intro a _
            by_cases ha : (a.id == r0.id) = true <;> simp [ha]
          rw [hcg, hf]
          rfl
      | cons r1 tl2 =>
        exfalso
        have hsub : List.Pairwise (fun a b => a.message_id ≠ b.message_id ∨ a.user_id ≠ b.user_id)
            (rs.filter (fun r => r.message_id == m && r.user_id == u)) :=
          hinv.sublist (List.filter_sublist rs)
        rw [hf] at hsub
        have h01 := (List.pairwise_cons.mp hsub).1 r1 (List.mem_cons_self r1 tl2)
        have h0 : r0 ∈ rs.filter (fun r => r.message_id == m && r.user_id == u) := by
          rw [hf]; exact List.mem_cons_self _ _
        have h1 : r1 ∈ rs.filter (fun r => r.message_id == m && r.user_id == u) := by
          rw [hf]; exact List.mem_cons_of_mem _ (List.mem_cons_self _ _)
        have hp0 := (reaction_pair_pred_iff r0 m u).mp (List.mem_filter.mp h0).2
        have hp1 := (reaction_pair_pred_iff r1 m u).mp (List.mem_filter.mp h1).2
        rcases h01 with h | h
        · exact h (hp0.1.trans hp1.1.symm)
        · exact h (hp0.2.trans hp1.2.symm)
  · intro ds nid1 nid2 e1 e2 hzero hne
    have hnil : ds.filter (fun r => r.message_id == m && r.user_id == u) = [] := by
      unfold dmPairCount at hzero
      exact List.length_eq_zero.mp hzero
    have hpairno : ∀ r ∈ ds, ¬ (r.message_id = m ∧ r.user_id = u) := by
      intro r hr hp
      have : r ∈ ds.filter (fun x => x.message_id == m && x.user_id == u) :=
        List.mem_filter.mpr ⟨hr, by simp [hp.1, hp.2]⟩
      rw [hnil] at this
      exact absurd this (List.not_mem_nil r)
    have hds1 : ds.filter (fun r => r.message_id == m && r.user_id == u && r.emoji == e1) = [] := by
      rw [List.filter_eq_nil_iff]
      intro r hr hp
      simp only [Bool.and_eq_true, beq_iff_eq] at hp
      exact hpairno r hr ⟨hp.1.1, hp.1.2⟩
    have hds2 : ds.filter (fun r => r.message_id == m && r.user_id == u && r.emoji == e2) = [] := by
      rw [List.filter_eq_nil_iff]
      intro r hr hp
      simp only [Bool.and_eq_true, beq_iff_eq] at hp
      exact hpairno r hr ⟨hp.1.1, hp.1.2⟩
    refine ⟨ds ++ [DirectMessageReaction.mk nid1 m u e1],
      (ds ++ [DirectMessageReaction.mk nid1 m u e1]) ++ [DirectMessageReaction.mk nid2 m u e2],
      ?_, ?_, ?_⟩
    · simp [dm_add_reaction, hds1]
    · have htriple2 : (ds ++ [DirectMessageReaction.mk nid1 m u e1]).filter
          (fun r => r.message_id == m && r.user_id == u && r.emoji == e2) = [] := by
        rw [List.filter_append, hds2]
        simp [hne]
      simp [dm_add_reaction, htriple2]
    · unfold dmPairCount
      rw [List.filter_append, List.filter_append, hnil]
      simp

/-- Witness for c3_reaction_uniqueness at the empty table. -/
theorem c3_reaction_uniqueness_witness :
    ∃ rs2, topic_add_reaction [] 1 5 7 "x" = some rs2 ∧
      atMostOnePerPair rs2 ∧ reactionPairCount rs2 5 7 = 1 :=
  (c3_reaction_uniqueness [] 1 5 7 "x" (by decide)).1

/-! ## C4: mark-as-read idempotence -/

theorem insert_read_receipts_nil (receipts : List ReadReceipt) (user : Nat) :
    insert_read_receipts receipts user [] = receipts := rfl

theorem insert_read_receipts_cons (receipts : List ReadReceipt) (user mid : Nat)
    (ids : List Nat) :
    insert_read_receipts receipts user (mid :: ids) =
      insert_read_receipts
        (if receipts.any (fun r => r.message_id == mid && r.user_id == user) then receipts
         else receipts ++ [⟨mid, user⟩]) user ids := rfl

theorem insert_read_receipts_any_mono (receipts : List ReadReceipt) (user : Nat)
    (ids : List Nat) (q : ReadReceipt → Bool) (h : receipts.any q = true) :
    (insert_read_receipts receipts user ids).any q = true := by
  induction ids generalizing receipts with
  | nil => exact h
  | cons mid ids ih =>
    rw [insert_read_receipts_cons]
    by_cases hc : receipts.any (fun r => r.message_id == mid && r.user_id == user) = true
    · rw [if_pos hc]; exact ih receipts h
    · rw [if_neg hc]
      apply ih
      rw [List.any_append]
      simp [h]

theorem insert_read_receipts_covers (receipts : List ReadReceipt) (user : Nat)
    (ids : List Nat) (mid : Nat) (hmem : mid ∈ ids) :
    (insert_read_receipts receipts user ids).any
      (fun r => r.message_id == mid && r.user_id == user) = true := by
  induction ids generalizing receipts with
  | nil => exact absurd hmem (List.not_mem_nil mid)
  | cons mid0 ids ih =>
    rw [insert_read_receipts_cons]
    rcases List.mem_cons.mp hmem with heq | htl
    · subst heq
      by_cases hc : receipts.any (fun r => r.message_id == mid && r.user_id == user) = true
      · rw [if_pos hc]
        exact insert_read_receipts_any_mono receipts user ids _ hc
      · rw [if_neg hc]
        apply insert_read_receipts_any_mono
        rw [List.any_append]
        simp
    · by_cases hc : receipts.any (fun r => r.message_id == mid0 && r.user_id == user) = true
      · rw [if_pos hc]; exact ih receipts htl
      · rw [if_neg hc]; exact ih _ htl

theorem insert_read_receipts_noop (receipts : List ReadReceipt) (user : Nat)
    (ids : List Nat)
    (h : ∀ mid ∈ ids, receipts.any (fun r => r.message_id == mid && r.user_id == user) = true) :
    insert_read_receipts receipts user ids = receipts := by
  induction ids with
  | nil => rfl
  | cons mid ids ih =>
    rw [insert_read_receipts_cons, if_pos (h mid (List.mem_cons_self mid ids))]
    exact ih (fun m hm => h m (List.mem_cons_of_mem mid hm))

theorem insert_read_receipts_nodup (receipts : List ReadReceipt) (user : Nat)
    (ids : List Nat) (h : receipts.Nodup) :
    (insert_read_receipts receipts user ids).Nodup := by
  induction ids generalizing receipts with
  | nil => exact h
  | cons mid ids ih =>
    rw [insert_read_receipts_cons]
    by_cases hc : receipts.any (fun r => r.message_id == mid && r.user_id == user) = true
    · rw [if_pos hc]; exact ih receipts h
    · rw [if_neg hc]
      apply ih
      rw [List.nodup_append]
      refine ⟨h, List.nodup_singleton _, ?_⟩
      intro a ha hab
      rw [List.mem_singleton] at hab
      apply hc
      rw [List.any_eq_true]
      refine ⟨a, ha, ?_⟩
      rw [hab]
      simp

/-- C4: ChatService.mark_messages_as_read is idempotent.  Running it a second
time with the same message ids adds no receipt rows; receipt rows stay free of
duplicates; with equal timestamps the whole end state is identical; and when the
marked ids cover every non-deleted message from the other party in the room, the
derived unread count is 0 after the first run and stays 0 after the second. -/
theorem c4_mark_read_idempotent
    (receipts : List ReadReceipt) (member : ChatRoomMember)
    (user : Nat) (ids : List Nat) (now now2 : Nat)
    (msgs : List ChatMessage) (room other : Nat)
    (hnodup : receipts.Nodup) :
    (mark_messages_as_read
        (mark_messages_as_read receipts member user ids now).1
        (mark_messages_as_read receipts member user ids now).2 user ids now2).1 =
      (mark_messages_as_read receipts member user ids now).1 ∧
    (mark_messages_as_read
        (mark_messages_as_read receipts member user ids now).1
        (mark_messages_as_read receipts member user ids now).2 user ids now2).1.Nodup ∧
    (now2 = now →
      mark_messages_as_read
        (mark_messages_as_read receipts member user ids now).1
        (mark_messages_as_read receipts member user ids now).2 user ids now2 =
      mark_messages_as_read receipts member user ids now) ∧
    ((∀ msg ∈ msgs, msg.room_id = room → msg.sender_id = other →
        msg.deleted_at = none → msg.id ∈ ids) →
      chat_unread_count msgs (mark_messages_as_read receipts member user ids now).1
        room user other = 0 ∧
      chat_unread_count msgs
        (mark_messages_as_read
          (mark_messages_as_read receipts member user ids now).1
          (mark_messages_as_read receipts member user ids now).2 user ids now2).1
        room user other = 0) := by
  have hsame : insert_read_receipts (insert_read_receipts receipts user ids) user ids =
      insert_read_receipts receipts user ids :=
    insert_read_receipts_noop _ user ids
      (fun mid hm => insert_read_receipts_covers receipts user ids mid hm)
  have hzero : (∀ msg ∈ msgs, msg.room_id = room → msg.sender_id = other →
      msg.deleted_at = none → msg.id ∈ ids) →
      chat_unread_count msgs (insert_read_receipts receipts user ids) room user other = 0 := by
    intro hcov
    unfold chat_unread_count
    rw [List.length_eq_zero, List.filter_eq_nil_iff]
    intro msg hmsg hp
    simp only [Bool.and_eq_true, beq_iff_eq, Bool.not_eq_true'] at hp
    have hid : msg.id ∈ ids := hcov msg hmsg hp.1.1.1 hp.1.1.2 hp.1.2
    have hany := insert_read_receipts_covers receipts user ids msg.id hid
    have hp2 := hp.2
    rw [hany] at hp2
    exact absurd hp2 (by simp)
  refine ⟨?_, ?_, ?_, ?_⟩
  · simpa [mark_messages_as_read] using hsame
  · simpa [mark_messages_as_read, hsame] using
      insert_read_receipts_nodup receipts user ids hnodup
  · intro hnow
    subst hnow
    simp [mark_messages_as_read, hsame]
  · intro hcov
    refine ⟨hzero hcov, ?_⟩
    simpa [mark_messages_as_read, hsame] using hzero hcov

/-- Witness for c4_mark_read_idempotent: marking messages 31 and 32 twice in a
two-message room leaves one receipt row per message and a zero unread count. -/
theorem c4_mark_read_idempotent_witness :
    (mark_messages_as_read
        (mark_messages_as_read [] ⟨9, 2, false, true, none⟩ 2 [31, 32] 40).1
        (mark_messages_as_read [] ⟨9, 2, false, true, none⟩ 2 [31, 32] 40).2 2 [31, 32] 41).1 =
      (mark_messages_as_read [] ⟨9, 2, false, true, none⟩ 2 [31, 32] 40).1 ∧
    chat_unread_count [⟨31, 9, 1, none⟩, ⟨32, 9, 1, none⟩]
      (mark_messages_as_read [] ⟨9, 2, false, true, none⟩ 2 [31, 32] 40).1 9 2 1 = 0 :=
  ⟨(c4_mark_read_idempotent [] ⟨9, 2, false, true, none⟩ 2 [31, 32] 40 41
      [⟨31, 9, 1, none⟩, ⟨32, 9, 1, none⟩] 9 1 (by decide)).1,
   ((c4_mark_read_idempotent [] ⟨9, 2, false, true, none⟩ 2 [31, 32] 40 41
      [⟨31, 9, 1, none⟩, ⟨32, 9, 1, none⟩] 9 1 (by decide)).2.2.2 (by decide)).1⟩

/-! ## C5: presence tracking -/

theorem dictGet_dictDel_self {α : Type} (d : List (Nat × α)) (k : Nat) :
    dictGet (dictDel d k) k = none := by
  unfold dictGet dictDel
  have hfind : (d.filter (fun kv => kv.1 != k)).find? (fun kv => kv.1 == k) = none := by
    rw [List.find?_eq_none]
    intro kv hkv
    have hne := (List.mem_filter.mp hkv).2
    simp only [bne_iff_ne, ne_eq] at hne
    simp [hne]
  rw [hfind]
  rfl

theorem dictGet_dictDel_other {α : Type} (d : List (Nat × α)) (k k2 : Nat)
    (hne : k2 ≠ k) : dictGet (dictDel d k) k2 = dictGet d k2 := by
  induction d with
  | nil => rfl
  | cons kv rest ih =>
    unfold dictGet dictDel at ih ⊢
    rw [List.filter_cons]
    by_cases hk : (kv.1 == k) = true
    · have hkeq : kv.1 = k := by simpa using hk
      have hk2 : (kv.1 == k2) = false := by
        rw [hkeq]
        simp only [beq_eq_false_iff_ne, ne_eq]
        intro h
        exact hne h.symm
      have hbne : ¬ ((kv.1 != k) = true) := by simp [bne, hk]
      rw [if_neg hbne]
      simpa [hk2] using ih
    · have hkf : (kv.1 == k) = false := by simpa using hk
      have hbne : (kv.1 != k) = true := by simp [bne, hkf]
      rw [if_pos hbne]
      by_cases hk2 : (kv.1 == k2) = true
      · simp [hk2]
      · have hk2f : (kv.1 == k2) = false := by simpa using hk2
        simpa [hk2f] using ih

theorem dictGet_dictSet_self {α : Type} (d : List (Nat × α)) (k : Nat) (v : α) :
    dictGet (dictSet d k v) k = some v := by
  unfold dictSet
  by_cases h : d.any (fun kv => kv.1 == k) = true
  · rw [if_pos h]
    induction d with
    | nil => simp at h
    | cons kv0 rest ih =>
      by_cases hk : (kv0.1 == k) = true
      · unfold dictGet
        simp only [List.map_cons]
        rw [if_pos hk]
        have hfind : List.find? (fun kv => kv.1 == k)
            ((k, v) :: List.map (fun kv => if kv.1 == k then (k, v) else kv) rest) =
            some (k, v) :=
          List.find?_cons_of_pos _ (by simp)
        rw [hfind]
        rfl
      · have hkf : (kv0.1 == k) = false := by simpa using hk
        have hany : rest.any (fun kv => kv.1 == k) = true := by
          rcases List.any_eq_true.mp h with ⟨x, hx, hpx⟩
          rcases List.mem_cons.mp hx with rfl | hxr
          · exact absurd hpx hk
          · exact List.any_eq_true.mpr ⟨x, hxr, hpx⟩
        have hrest := ih hany
        unfold dictGet at hrest ⊢
        simp only [List.map_cons, if_neg hk]
        simpa [hkf] using hrest
  · rw [if_neg h]
    rw [Bool.not_eq_true] at h
    induction d with
    | nil => simp [dictGet]
    | cons kv0 rest ih =>
      rw [List.any_cons, Bool.or_eq_false_iff] at h
      have hrest := ih h.2
      unfold dictGet at hrest ⊢
      rw [List.cons_append]
      simpa [h.1] using hrest

theorem isOnline_setOnline (users : List User) (u : Nat) (b : Bool) (now : Nat)
    (h : users.any (fun x => x.id == u) = true) :
    isOnline (setOnline users u b now) u = b ∧
    lastSeenAt (setOnline users u b now) u = some now := by
  induction users with
  | nil => simp at h
  | cons x0 rest ih =>
    by_cases hx : (x0.id == u) = true
    · unfold isOnline lastSeenAt setOnline
      simp only [List.map_cons]
      rw [if_pos hx]
      have hfind : List.find? (fun x => x.id == u)
          (({ x0 with is_online := b, last_seen_at := some now } : User) ::
            List.map (fun x =>
              if x.id == u then { x with is_online := b, last_seen_at := some now } else x)
              rest) =
          some { x0 with is_online := b, last_seen_at := some now } :=
        List.find?_cons_of_pos _ (by simpa using hx)
      rw [hfind]
      exact ⟨rfl, rfl⟩
    · have hxf : (x0.id == u) = false := by simpa using hx
      have hany : rest.any (fun x => x.id == u) = true := by
        rcases List.any_eq_true.mp h with ⟨x, hmem, hpx⟩
        rcases List.mem_cons.mp hmem with rfl | hxr
        · exact absurd hpx hx
        · exact List.any_eq_true.mpr ⟨x, hxr, hpx⟩
      have hrest := ih hany
      unfold isOnline lastSeenAt setOnline at hrest ⊢
      simp only [List.map_cons, if_neg hx]
      simpa [hxf] using hrest

/-- C5 (amended): the presence tracker does not reference-count connections.
Disconnecting ANY connection attributed to a user — last or not — marks the
user offline in storage with a last_seen_at stamp, broadcasts an offline status
event, and discards the user's whole active-room set, while other connections
of the same user stay registered; and every fresh connect resets the user's
active-room set to the empty set (discarding rooms joined through other live
connections) and marks the user online. -/
theorem c5_presence_no_refcount
    (st : PresenceState) (sid uid now : Nat)
    (hconn : dictGet st.active_connections sid = some uid)
    (hrow : st.users.any (fun x => x.id == uid) = true) :
    isOnline (sio_disconnect st sid now).users uid = false ∧
    lastSeenAt (sio_disconnect st sid now).users uid = some now ∧
    (sio_disconnect st sid now).status_events = st.status_events ++ [(uid, false)] ∧
    dictGet (sio_disconnect st sid now).user_rooms uid = none ∧
    (∀ sid2 : Nat, sid2 ≠ sid →
      dictGet (sio_disconnect st sid now).active_connections sid2 =
        dictGet st.active_connections sid2) ∧
    dictGet (sio_connect st sid uid now).user_rooms uid = some [] ∧
    isOnline (sio_connect st sid uid now).users uid = true := by
  unfold sio_disconnect
  rw [hconn]
  refine ⟨(isOnline_setOnline st.users uid false now hrow).1,
    (isOnline_setOnline st.users uid false now hrow).2, rfl,
    dictGet_dictDel_self st.user_rooms uid,
    fun sid2 h2 => dictGet_dictDel_other st.active_connections sid sid2 h2,
    dictGet_dictSet_self st.user_rooms uid [],
    (isOnline_setOnline st.users uid true now hrow).1⟩

/-- Witness for c5_presence_no_refcount: user 7 connects as sid 1 and is then
disconnected. -/
theorem c5_presence_no_refcount_witness :
    isOnline (sio_disconnect (sio_connect presSt0 1 7 0) 1 2).users 7 = false :=
  (c5_presence_no_refcount (sio_connect presSt0 1 7 0) 1 7 2 (by decide) (by decide)).1

/-- Counterexample to C5 as stated: user 7 holds two live connections (sids 1
and 2).  The second connect has already discarded the room set joined through
sid 1, and disconnecting sid 1 — although sid 2 stays attributed to user 7 —
marks the user offline and broadcasts an offline event. -/
theorem c5_counterexample :
    dictGet (sio_connect (sio_join_room (sio_connect presSt0 1 7 0) 1 5) 2 7 1).user_rooms 7 =
      some [] ∧
    dictGet ((sio_disconnect (sio_connect (sio_join_room (sio_connect presSt0 1 7 0) 1 5) 2 7 1)
        1 2).active_connections) 2 = some 7 ∧
    isOnline (sio_disconnect (sio_connect (sio_join_room (sio_connect presSt0 1 7 0) 1 5) 2 7 1)
        1 2).users 7 = false ∧
    (7, false) ∈ (sio_disconnect (sio_connect (sio_join_room (sio_connect presSt0 1 7 0) 1 5) 2 7 1)
        1 2).status_events := by
  refine ⟨?_, ?_, ?_, ?_⟩ <;> decide

/-! ## C2: reported unread counts -/

/-- C2 (amended): the unread count computed by get_user_topics equals the number
of ALL message rows of the topic — soft-deleted rows and the user's own
messages included — whose created_at lies strictly after the membership's
last_read_at, a NULL last_read_at counting every row. -/
theorem c2_unread_amended (msgs : List TopicMessage) (t : Nat) (lastRead : Option Nat) :
    get_user_topics_unread msgs t lastRead = amended_unread_count msgs t lastRead := by
  unfold get_user_topics_unread amended_unread_count
  rw [sum_indicator_eq_length_filter, List.filter_filter]
  congr 1
  apply List.filter_congr
  intro m _
  rw [Bool.and_comm]

/-- Counterexample to C2 as stated: one soft-deleted message created after the
last-read mark.  get_user_topics reports 1 unread for the topic, while the
claimed count (non-deleted messages only, own messages excluded) is 0. -/
theorem c2_counterexample :
    get_user_topics_unread [⟨1, 3, some 9, "x", none, false, true, 20⟩] 3 (some 10) = 1 ∧
    spec_unread_count [⟨1, 3, some 9, "x", none, false, true, 20⟩] 3 5 (some 10) = 0 := by
  exact ⟨rfl, rfl⟩

/-! ## C9: agent mention parsing -/

/-- C9: the parser contradicts its registry specification and its own
documentation on names containing interior spaces.  The claim-side detector
(ignoring case and interior spaces) accepts the documented input
at-Email-AI followed by a prompt, yet parse_agent_mention returns none for it,
because the lazy group of the regex stops at the first space and the
unnormalized name email is not in the registry; single-token mentions still
parse. -/
theorem c9_parse_space_name :
    claim_detects_mention "@Email AI hello" = true ∧
    parse_agent_mention "@Email AI hello" = none ∧
    parse_agent_mention "@emailAi hello" = some (AgentType.emailAi, "hello") ∧
    parse_agent_mention "@Search AI find information about Python" = none ∧
    parse_agent_mention "@searchAi find it" = some (AgentType.searchAi, "find it") := by
  refine ⟨?_, ?_, ?_, ?_, ?_⟩ <;> decide

/-! ## Lemmas about create_message and the notification helpers -/

theorem rest_receiver_ids_last_read (members : List TopicMember) (mid : Nat)
    (lr : Option Nat) (t s : Nat) :
    rest_receiver_ids (members.map (fun x =>
      if x.id == mid then { x with last_read_at := lr } else x)) t s =
    rest_receiver_ids members t s := by
  unfold rest_receiver_ids
  rw [list_filter_map_swap, List.map_map]
  have hfe : members.filter (fun a =>
      ((if a.id == mid then { a with last_read_at := lr } else a).topic_id == t &&
       (if a.id == mid then { a with last_read_at := lr } else a).is_active &&
       (if a.id == mid then { a with last_read_at := lr } else a).user_id != s)) =
      members.filter (fun x => x.topic_id == t && x.is_active && x.user_id != s) := by
    apply List.filter_congr
    intro a _
    by_cases ha : (a.id == mid) = true <;> simp [ha]
  rw [hfe]
  apply List.map_congr_left
  intro a _
  simp only [Function.comp_apply]
  by_cases ha : (a.id == mid) = true
  · rw [if_pos ha]
  · rw [if_neg ha]

theorem rest_dispatches_last_read (members : List TopicMember) (mid : Nat)
    (lr : Option Nat) (subs : List PushSubscription) (sn tn : String)
    (t : Nat) (c : String) (s : Nat) :
    rest_dispatches (members.map (fun x =>
      if x.id == mid then { x with last_read_at := lr } else x)) subs sn tn t c s =
    rest_dispatches members subs sn tn t c s := by
  unfold rest_dispatches
  rw [rest_receiver_ids_last_read]

theorem rest_dispatches_complete (members : List TopicMember)
    (subs : List PushSubscription) (sn tn : String) (t : Nat) (c : String) (s : Nat)
    (mb : TopicMember) (hmb : mb ∈ members) (hmt : mb.topic_id = t)
    (hma : mb.is_active = true) (hms : mb.user_id ≠ s)
    (sub : PushSubscription) (hsub : sub ∈ subs) (hsu : sub.user_id = mb.user_id) :
    Dispatch.mk sub.endpoint sn c tn ∈ rest_dispatches members subs sn tn t c s := by
  have hrid : mb.user_id ∈ rest_receiver_ids members t s := by
    unfold rest_receiver_ids
    exact List.mem_map_of_mem _ (List.mem_filter.mpr ⟨hmb, by
      simp [hmt, hma, bne_iff_ne, hms]⟩)
  have hne : ¬ ((rest_receiver_ids members t s).isEmpty = true) := by
    intro hemp
    rw [List.isEmpty_iff] at hemp
    rw [hemp] at hrid
    exact absurd hrid (List.not_mem_nil _)
  unfold rest_dispatches
  rw [if_neg hne]
  refine List.mem_map.mpr ⟨sub, List.mem_filter.mpr ⟨hsub, ?_⟩, rfl⟩
  rw [hsu]
  exact List.elem_iff.mpr hrid

theorem rest_dispatches_preview (members : List TopicMember)
    (subs : List PushSubscription) (sn tn : String) (t : Nat) (c : String) (s : Nat)
    (d : Dispatch) (hd : d ∈ rest_dispatches members subs sn tn t c s) :
    d.preview = c ∧ d.sender_name = sn := by
  unfold rest_dispatches at hd
  by_cases hne : ((rest_receiver_ids members t s).isEmpty = true)
  · rw [if_pos hne] at hd
    exact absurd hd (List.not_mem_nil d)
  · rw [if_neg hne] at hd
    rcases List.mem_map.mp hd with ⟨x, _, hx⟩
    rw [← hx]
    exact ⟨rfl, rfl⟩

theorem length_filter_one_of_nodup {α β : Type} [DecidableEq β] (l : List α) (f : α → β)
    (p : α → Bool) (a : α) (hnd : (l.map f).Nodup) (ha : a ∈ l) (hp : p a = true) :
    (l.filter (fun x => p x && (f x == f a))).length = 1 := by
  induction l with
  | nil => exact absurd ha (List.not_mem_nil a)
  | cons b rest ih =>
    rw [List.map_cons, List.nodup_cons] at hnd
    rcases List.mem_cons.mp ha with rfl | har
    · rw [List.filter_cons, if_pos (by simp [hp])]
      have hrest : rest.filter (fun x => p x && (f x == f a)) = [] := by
        rw [List.filter_eq_nil_iff]
        intro x hx hpx
        rw [Bool.and_eq_true] at hpx
        have : f x = f a := by simpa using hpx.2
        exact hnd.1 (this ▸ List.mem_map_of_mem f hx)
      rw [hrest]
      rfl
    · have hbf : (f b == f a) = false := by
        rw [beq_eq_false_iff_ne]
        intro hfeq
        exact hnd.1 (hfeq ▸ List.mem_map_of_mem f har)
      rw [List.filter_cons, if_neg (by simp [hbf])]
      exact ih hnd.2 har

/-- Shape of a successful create_message run: the inserted message row, the
dispatch list (computed over the untouched membership rows, since the sender's
last_read_at update does not affect receiver selection), and the store update
restricted to what the claims need. -/
theorem create_message_ok_shape
    (db : TopicStore) (t : Nat) (c : String) (r : Option Nat)
    (atts : List AttachmentData) (mids : List Nat) (s fid now : Nat)
    (db1 : TopicStore) (msg : TopicMessage) (ds : List Dispatch)
    (hok : create_message db t c r atts mids s fid now = (db1, Except.ok (msg, ds))) :
    msg = ⟨fid, t, some s, c, r, false, false, now⟩ ∧
    ds = rest_dispatches db.members db.subscriptions
      (senderNameOf db.users s) (topicNameOf db.topics t) t c s ∧
    ∃ mb0 : TopicMember, findActiveMember db.members t s = [mb0] ∧
      db1.members = db.members.map (fun x =>
        if x.id == mb0.id then { x with last_read_at := some now } else x) ∧
      db1.messages = db.messages ++ [msg] := by
  cases hf : findActiveMember db.members t s with
  | nil =>
    rw [create_message, hf] at hok
    exact absurd (congrArg Prod.snd hok).symm (by simp)
  | cons mb0 tail =>
    cases tail with
    | cons x xs =>
      rw [create_message, hf] at hok
      simp only [List.isEmpty_cons, if_false, Bool.false_eq_true] at hok
      exact absurd (congrArg Prod.snd hok).symm (by simp)
    | nil =>
      rw [create_message, hf] at hok
      simp only [List.isEmpty_nil, if_true] at hok
      rw [Prod.mk.injEq] at hok
      obtain ⟨hst, hsnd⟩ := hok
      have hpair := Except.ok.inj hsnd
      rw [Prod.mk.injEq] at hpair
      obtain ⟨hm, hd⟩ := hpair
      refine ⟨hm.symm, ?_, ⟨mb0, rfl, ?_, ?_⟩⟩
      · rw [← hd]
        exact rest_dispatches_last_read db.members mb0.id (some now) db.subscriptions _ _ t c s
      · rw [← hst]
      · rw [← hst, ← hm]

/-! ## C6: membership precondition and content validation -/

/-- C6 (amended): create_message fails with the ValueError surfaced as HTTP 403
exactly when the sender holds no active membership row for the topic, and in
every error case nothing is persisted (the store, in particular the message
table, is unchanged).  The schema-level content validation, however, requires a
non-empty content string unconditionally: the attachments field never relaxes
it, so an empty content with attachments present is still rejected. -/
theorem c6_membership_403
    (db : TopicStore) (t : Nat) (c : String) (r : Option Nat)
    (atts : List AttachmentData) (mids : List Nat) (s fid now : Nat) :
    ((create_message db t c r atts mids s fid now).2 = Except.error CmError.notMember ↔
      findActiveMember db.members t s = []) ∧
    (∀ e, (create_message db t c r atts mids s fid now).2 = Except.error e →
      (create_message db t c r atts mids s fid now).1 = db) ∧
    (∀ c2 : String, ∀ a1 a2 : List AttachmentData,
      topic_message_create_valid c2 a1 = topic_message_create_valid c2 a2) ∧
    (∀ a : List AttachmentData, topic_message_create_valid "" a = false) := by
  refine ⟨?_, ?_, fun c2 a1 a2 => rfl, fun a => rfl⟩
  · cases hf : findActiveMember db.members t s with
    | nil => simp [create_message, hf]
    | cons mb tail =>
      cases tail with
      | nil => simp [create_message, hf]
      | cons x xs => simp [create_message, hf]
  · intro e
    cases hf : findActiveMember db.members t s with
    | nil => intro _; simp [create_message, hf]
    | cons mb tail =>
      cases tail with
      | nil => intro hcontra; simp [create_message, hf] at hcontra
      | cons x xs => intro _; simp [create_message, hf]

/-- Witness for c6_membership_403: user 99 is no member of topic 9, so the
create fails and the store is unchanged. -/
theorem c6_membership_403_witness :
    (create_message fixtureStore 9 "hi" none [] [] 99 100 50).1 = fixtureStore :=
  (c6_membership_403 fixtureStore 9 "hi" none [] [] 99 100 50).2.1
    CmError.notMember (by decide)

/-- Counterexample to C6 as stated: an empty content with an attachment present
is claimed to be accepted, but the schema rejects it. -/
theorem c6_counterexample :
    topic_message_create_valid "" [⟨"u", "f", 1, "m"⟩] = false := rfl

/-! ## C1: presence-independent push dispatch -/

theorem sio_offline_scan_ok_nil (ms : List TopicMember) (rooms : List (Nat × List Nat))
    (s t : Nat) (l : List Nat) (h : sio_offline_scan ms rooms s t = Except.ok l) :
    l = [] := by
  induction ms with
  | nil =>
    unfold sio_offline_scan at h
    exact (Except.ok.inj h).symm
  | cons mb rest ih =>
    unfold sio_offline_scan at h
    by_cases h1 : (mb.user_id == s) = true
    · rw [if_pos h1] at h
      exact ih h
    · rw [if_neg h1] at h
      by_cases h2 : activeInRoom rooms mb.user_id t = true
      · rw [if_pos h2] at h
        exact ih h
      · rw [if_neg h2] at h
        exact absurd h (by simp)

theorem socket_send_message_preserves (db : TopicStore) (rooms : List (Nat × List Nat))
    (s t : Nat) (c : String) :
    (socket_send_message db rooms s t c).1 = db ∧
    (∀ ds, (socket_send_message db rooms s t c).2 = Except.ok ds → ds = []) := by
  unfold socket_send_message
  cases hscan : sio_offline_scan (db.members.filter (fun mb => mb.topic_id == t))
      rooms s t with
  | error e => simp [hscan]
  | ok off =>
    have hoff : off = [] := sio_offline_scan_ok_nil _ rooms s t off hscan
    subst hoff
    cases hfind : db.topics.find? (fun tp => tp.id == t) with
    | none => simp [hscan, hfind]
    | some tp => simp [hscan, hfind]

/-- C1 (amended): no path grants an actively-viewing member special treatment
on the push side the way the claim states.  The socket send_message path never
changes the store and never dispatches a push at all (the unread increment
aborts on the missing column before any dispatch); but the REST create_message
path attempts a dispatch to EVERY subscription of every active-membership
member other than the sender — its receiver selection consults no presence
state, so a member actively viewing the room still gets a dispatch attempt. -/
theorem c1_active_member_push :
    (∀ db : TopicStore, ∀ t : Nat, ∀ c : String, ∀ r : Option Nat,
      ∀ atts : List AttachmentData, ∀ mids : List Nat, ∀ s fid now : Nat,
      ∀ db1 : TopicStore, ∀ msg : TopicMessage, ∀ ds : List Dispatch,
      create_message db t c r atts mids s fid now = (db1, Except.ok (msg, ds)) →
      ∀ mb ∈ db.members, mb.topic_id = t → mb.is_active = true → mb.user_id ≠ s →
      ∀ sub ∈ db.subscriptions, sub.user_id = mb.user_id →
      ∃ d ∈ ds, d.endpoint = sub.endpoint) ∧
    (∀ db : TopicStore, ∀ rooms : List (Nat × List Nat), ∀ s t : Nat, ∀ c : String,
      (socket_send_message db rooms s t c).1 = db ∧
      (∀ ds, (socket_send_message db rooms s t c).2 = Except.ok ds → ds = [])) := by
  constructor
  · intro db t c r atts mids s fid now db1 msg ds hok mb hmb hmt hma hms sub hsub hsu
    obtain ⟨-, hds, -⟩ := create_message_ok_shape db t c r atts mids s fid now db1 msg ds hok
    rw [hds]
    exact ⟨Dispatch.mk sub.endpoint (senderNameOf db.users s) c (topicNameOf db.topics t),
      rest_dispatches_complete db.members db.subscriptions _ _ t c s
        mb hmb hmt hma hms sub hsub hsu, rfl⟩
  · intro db rooms s t c
    exact socket_send_message_preserves db rooms s t c

/-- Witness for c1_active_member_push: in the fixture store user 2 is an active
member of topic 9 with a push subscription, and the presence map roomsBActive
marks user 2 as actively viewing room 9 — yet the REST dispatch list contains
the dispatch to endpoint ep. -/
theorem c1_active_member_push_witness :
    activeInRoom roomsBActive 2 9 = true ∧
    ∃ d ∈ [Dispatch.mk "ep" "A" "hi" "T"], d.endpoint = "ep" := by
  refine ⟨by decide, ?_⟩
  exact c1_active_member_push.1 fixtureStore 9 "hi" none [] [] 1 100 50
    (create_message fixtureStore 9 "hi" none [] [] 1 100 50).1
    ⟨100, 9, some 1, "hi", none, false, false, 50⟩
    [Dispatch.mk "ep" "A" "hi" "T"]
    (by decide) mbB (by decide) (by decide) (by decide) (by decide)
    subB (by decide) (by decide)

/-- Counterexample to C1 as stated: posting a message through create_message
while member 2 is actively viewing room 9 (per roomsBActive) still produces a
push dispatch to member 2's subscription endpoint. -/
theorem c1_counterexample :
    activeInRoom roomsBActive 2 9 = true ∧
    (create_message fixtureStore 9 "hi" none [] [] 1 100 50).2 =
      Except.ok (⟨100, 9, some 1, "hi", none, false, false, 50⟩,
        [Dispatch.mk "ep" "A" "hi" "T"]) := by
  exact ⟨by decide, by decide⟩

/-! ## C8: one dispatch per subscription, preview content -/

/-- C8 (amended): in the REST create_message path exactly one notification
dispatch is attempted per push subscription of each active member other than
the sender (members not viewing the room included), but the notification body
carries the FULL message content as preview — no 100-character truncation and
no ellipsis (the socket path, which does truncate to 100 characters without an
ellipsis, never reaches its dispatch code). -/
theorem c8_dispatch_preview
    (db : TopicStore) (t : Nat) (c : String) (r : Option Nat)
    (atts : List AttachmentData) (mids : List Nat) (s fid now : Nat)
    (db1 : TopicStore) (msg : TopicMessage) (ds : List Dispatch)
    (hok : create_message db t c r atts mids s fid now = (db1, Except.ok (msg, ds))) :
    (∀ d ∈ ds, d.preview = c) ∧
    ((db.subscriptions.map (fun x => x.endpoint)).Nodup →
      ∀ sub ∈ db.subscriptions, ∀ mb ∈ db.members, mb.topic_id = t →
        mb.is_active = true → mb.user_id ≠ s → sub.user_id = mb.user_id →
        (ds.filter (fun d => d.endpoint == sub.endpoint)).length = 1) := by
  obtain ⟨-, hds, -⟩ := create_message_ok_shape db t c r atts mids s fid now db1 msg ds hok
  subst hds
  constructor
  · intro d hd
    exact (rest_dispatches_preview db.members db.subscriptions _ _ t c s d hd).1
  · intro hnd sub hsub mb hmb hmt hma hms hsu
    have hrid : mb.user_id ∈ rest_receiver_ids db.members t s := by
      unfold rest_receiver_ids
      exact List.mem_map_of_mem _ (List.mem_filter.mpr ⟨hmb, by
        simp [hmt, hma, bne_iff_ne, hms]⟩)
    have hne : ¬ ((rest_receiver_ids db.members t s).isEmpty = true) := by
      intro hemp
      rw [List.isEmpty_iff] at hemp
      rw [hemp] at hrid
      exact absurd hrid (List.not_mem_nil _)
    unfold rest_dispatches
    rw [if_neg hne, list_filter_map_swap, List.length_map]
    have hcong : (db.subscriptions.filter
        (fun x => (rest_receiver_ids db.members t s).contains x.user_id)).filter
        (fun a => ((Dispatch.mk a.endpoint (senderNameOf db.users s) c
          (topicNameOf db.topics t)).endpoint == sub.endpoint)) =
        (db.subscriptions.filter
        (fun x => (rest_receiver_ids db.members t s).contains x.user_id)).filter
        (fun a => a.endpoint == sub.endpoint) := by
      apply List.filter_congr
      intro a _
      rfl
    rw [hcong, List.filter_filter]
    have hcong2 : db.subscriptions.filter
        (fun a => (a.endpoint == sub.endpoint) &&
          (rest_receiver_ids db.members t s).contains a.user_id) =
        db.subscriptions.filter
        (fun a => (rest_receiver_ids db.members t s).contains a.user_id &&
          (a.endpoint == sub.endpoint)) := by
      apply List.filter_congr
      intro a _
      rw [Bool.and_comm]
    rw [hcong2]
    exact length_filter_one_of_nodup db.subscriptions (fun x => x.endpoint)
      (fun x => (rest_receiver_ids db.members t s).contains x.user_id) sub hnd hsub
      (by show (rest_receiver_ids db.members t s).contains sub.user_id = true
          rw [hsu]
          exact List.elem_iff.mpr hrid)

set_option maxRecDepth 4096 in
/-- Witness for c8_dispatch_preview: the fixture dispatch to endpoint ep occurs
exactly once. -/
theorem c8_dispatch_preview_witness :
    ([Dispatch.mk "ep" "A" "hi" "T"].filter
      (fun d => d.endpoint == subB.endpoint)).length = 1 :=
  (c8_dispatch_preview fixtureStore 9 "hi" none [] [] 1 100 50
    (create_message fixtureStore 9 "hi" none [] [] 1 100 50).1
    ⟨100, 9, some 1, "hi", none, false, false, 50⟩
    [Dispatch.mk "ep" "A" "hi" "T"] (by decide)).2 (by decide) subB (by decide)
    mbB (by decide) (by decide) (by decide) (by decide) (by decide)

set_option maxRecDepth 8192 in
/-- Counterexample to C8 as stated: member 2 holds one subscription and is not
viewing any room, the posted content has 150 characters, and the dispatched
notification carries all 150 characters as preview — not truncated to 100, no
ellipsis. -/
theorem c8_counterexample :
    (create_message fixtureStore 9 longContent none [] [] 1 100 50).2 =
      Except.ok (⟨100, 9, some 1, longContent, none, false, false, 50⟩,
        [Dispatch.mk "ep" "A" longContent "T"]) ∧
    activeInRoom [] 2 9 = false ∧
    (Dispatch.mk "ep" "A" longContent "T").preview.length = 150 := by
  refine ⟨by decide, by decide, by decide⟩

/-! ## C7: topic deletion cascade -/

theorem mem_del_message_ids (msgs : List TopicMessage) (t : Nat)
    (m : TopicMessage) (hm : m ∈ msgs) (hmt : m.topic_id = t) :
    m.id ∈ del_message_ids msgs t := by
  unfold del_message_ids null_reply_ids
  have himg : ({ m with reply_to_id := none } : TopicMessage) ∈
      msgs.map (fun x => if x.topic_id == t then { x with reply_to_id := none } else x) :=
    List.mem_map.mpr ⟨m, hm, by rw [if_pos (by simp [hmt])]⟩
  have hfil : ({ m with reply_to_id := none } : TopicMessage) ∈
      (msgs.map (fun x => if x.topic_id == t then { x with reply_to_id := none } else x)).filter
        (fun x => x.topic_id == t) :=
    List.mem_filter.mpr ⟨himg, by simp [hmt]⟩
  have hid := List.mem_map_of_mem (fun x => x.id) hfil
  simpa using hid

theorem get_topic_by_id_none (db2 : TopicStore) (t v : Nat)
    (h : db2.topics.find? (fun x => x.id == t && x.is_active) = none) :
    get_topic_by_id db2 t v = none := by
  unfold get_topic_by_id
  rw [h]

/-- C7: delete_topic_by_id run by an admin on an existing topic succeeds in a
single atomic store update that nulls the messages' reply_to_id and then
removes the topic's messages (with their mentions and reactions, by cascade),
its membership rows and the topic row; afterwards get_topic_by_id reports
not-found for every caller, and a non-admin attempt fails with the ValueError
(HTTP 403) leaving the store untouched. -/
theorem c7_delete_topic_cascade
    (db : TopicStore) (t u : Nat) (tp : Topic)
    (hadm : verify_admin db.users u = true)
    (hfind : db.topics.find? (fun x => x.id == t) = some tp) :
    (delete_topic_by_id db t u).2 = Except.ok true ∧
    (∀ v, get_topic_by_id (delete_topic_by_id db t u).1 t v = none) ∧
    (∀ m ∈ (delete_topic_by_id db t u).1.messages, m.topic_id ≠ t) ∧
    (∀ mb ∈ (delete_topic_by_id db t u).1.members, mb.topic_id ≠ t) ∧
    (∀ x ∈ (delete_topic_by_id db t u).1.mentions, ∀ m ∈ db.messages,
      m.topic_id = t → x.message_id ≠ m.id) ∧
    (∀ x ∈ (delete_topic_by_id db t u).1.reactions, ∀ m ∈ db.messages,
      m.topic_id = t → x.message_id ≠ m.id) ∧
    (∀ v, verify_admin db.users v = false →
      delete_topic_by_id db t v = (db, Except.error ())) := by
  have hna : ¬ ((!(verify_admin db.users u)) = true) := by simp [hadm]
  have hrun2 : (delete_topic_by_id db t u).2 = Except.ok true := by
    unfold delete_topic_by_id
    rw [if_neg hna, hfind]
  have htop : (delete_topic_by_id db t u).1.topics =
      db.topics.filter (fun x => x.id != t) := by
    unfold delete_topic_by_id
    rw [if_neg hna, hfind]
  have hmsgs : (delete_topic_by_id db t u).1.messages =
      (null_reply_ids db.messages t).filter (fun m => m.topic_id != t) := by
    unfold delete_topic_by_id
    rw [if_neg hna, hfind]
  have hmems : (delete_topic_by_id db t u).1.members =
      db.members.filter (fun mb => mb.topic_id != t) := by
    unfold delete_topic_by_id
    rw [if_neg hna, hfind]
  have hment : (delete_topic_by_id db t u).1.mentions =
      db.mentions.filter
        (fun x => !((del_message_ids db.messages t).contains x.message_id)) := by
    unfold delete_topic_by_id
    rw [if_neg hna, hfind]
  have hreact : (delete_topic_by_id db t u).1.reactions =
      db.reactions.filter
        (fun x => !((del_message_ids db.messages t).contains x.message_id)) := by
    unfold delete_topic_by_id
    rw [if_neg hna, hfind]
  refine ⟨hrun2, ?_, ?_, ?_, ?_, ?_, ?_⟩
  · intro v
    apply get_topic_by_id_none
    rw [htop, List.find?_eq_none]
    intro a ha
    have h2 := (List.mem_filter.mp ha).2
    simp only [bne_iff_ne, ne_eq] at h2
    simp [h2]
  · intro m hm
    rw [hmsgs] at hm
    have h2 := (List.mem_filter.mp hm).2
    simpa [bne_iff_ne] using h2
  · intro mb hmb
    rw [hmems] at hmb
    have h2 := (List.mem_filter.mp hmb).2
    simpa [bne_iff_ne] using h2
  · intro x hx m hm hmt heq
    rw [hment] at hx
    have hnc := (List.mem_filter.mp hx).2
    have hmem := mem_del_message_ids db.messages t m hm hmt
    rw [← heq] at hmem
    have hc : (del_message_ids db.messages t).contains x.message_id = true :=
      List.elem_iff.mpr hmem
    rw [hc] at hnc
    exact absurd hnc (by simp)
  · intro x hx m hm hmt heq
    rw [hreact] at hx
    have hnc := (List.mem_filter.mp hx).2
    have hmem := mem_del_message_ids db.messages t m hm hmt
    rw [← heq] at hmem
    have hc : (del_message_ids db.messages t).contains x.message_id = true :=
      List.elem_iff.mpr hmem
    rw [hc] at hnc
    exact absurd hnc (by simp)
  · intro v hv
    unfold delete_topic_by_id
    rw [if_pos (by simp [hv])]

set_option maxRecDepth 4096 in
/-- Witness for c7_delete_topic_cascade: admin user 3 deletes topic 9 of the
deletion fixture; the run reports success and the topic is gone for user 1. -/
theorem c7_delete_topic_cascade_witness :
    (delete_topic_by_id fixtureDelStore 9 3).2 = Except.ok true ∧
    get_topic_by_id (delete_topic_by_id fixtureDelStore 9 3).1 9 1 = none :=
  ⟨(c7_delete_topic_cascade fixtureDelStore 9 3 tT (by decide) (by decide)).1,
   (c7_delete_topic_cascade fixtureDelStore 9 3 tT (by decide) (by decide)).2.1 1⟩

/-! ## C10: last_read_at as the only durable read-state field -/

/-- C10: a TopicMember row is fully determined by id, topic_id, user_id,
joined_at, last_read_at and is_active — there is no unread_count column.  Every
membership row surviving a create_message run agrees with its pre-state row on
all fields except possibly last_read_at, and the sender's row has last_read_at
set to the new message's created_at; the socket mark-as-read path likewise
rewrites only last_read_at (to the current time); the reported topic unread
count is a function of last_read_at alone (given the message rows); and the
socket send_message path — whose unread_count increments touch no column —
persists nothing at all. -/
theorem c10_last_read_frame :
    (∀ a b : TopicMember, a.id = b.id → a.topic_id = b.topic_id →
      a.user_id = b.user_id → a.joined_at = b.joined_at →
      a.last_read_at = b.last_read_at → a.is_active = b.is_active → a = b) ∧
    (∀ db : TopicStore, ∀ t : Nat, ∀ c : String, ∀ r : Option Nat,
      ∀ atts : List AttachmentData, ∀ mids : List Nat, ∀ s fid now : Nat,
      ∀ db1 : TopicStore, ∀ msg : TopicMessage, ∀ ds : List Dispatch,
      create_message db t c r atts mids s fid now = (db1, Except.ok (msg, ds)) →
      (∀ x1 ∈ db1.members, ∃ x ∈ db.members, x1.id = x.id ∧ x1.topic_id = x.topic_id ∧
        x1.user_id = x.user_id ∧ x1.joined_at = x.joined_at ∧ x1.is_active = x.is_active ∧
        (x1.last_read_at = x.last_read_at ∨ x1.last_read_at = some now)) ∧
      (∃ x1 ∈ db1.members, x1.topic_id = t ∧ x1.user_id = s ∧
        x1.last_read_at = some msg.created_at)) ∧
    (∀ members : List TopicMember, ∀ topic user now : Nat, ∀ out : List TopicMember,
      socket_mark_as_read members topic user now = some out →
      ∀ x1 ∈ out, ∃ x ∈ members, x1.id = x.id ∧ x1.topic_id = x.topic_id ∧
        x1.user_id = x.user_id ∧ x1.joined_at = x.joined_at ∧ x1.is_active = x.is_active ∧
        (x1.last_read_at = x.last_read_at ∨ x1.last_read_at = some now)) ∧
    (∀ msgs : List TopicMessage, ∀ t : Nat, ∀ m1 m2 : TopicMember,
      m1.last_read_at = m2.last_read_at →
      get_user_topics_unread msgs t m1.last_read_at =
        get_user_topics_unread msgs t m2.last_read_at) ∧
    (∀ db : TopicStore, ∀ rooms : List (Nat × List Nat), ∀ s t : Nat, ∀ c : String,
      (socket_send_message db rooms s t c).1 = db) := by
  refine ⟨?_, ?_, ?_, ?_, ?_⟩
  · intro a b h1 h2 h3 h4 h5 h6
    cases a
    cases b
    simp only at h1 h2 h3 h4 h5 h6
    simp [h1, h2, h3, h4, h5, h6]
  · intro db t c r atts mids s fid now db1 msg ds hok
    obtain ⟨hmsg, -, mb0, hf, hmem, -⟩ :=
      create_message_ok_shape db t c r atts mids s fid now db1 msg ds hok
    constructor
    · intro x1 hx1
      rw [hmem] at hx1
      rcases List.mem_map.mp hx1 with ⟨x, hx, hxeq⟩
      by_cases hid : (x.id == mb0.id) = true
      · rw [if_pos hid] at hxeq
        exact ⟨x, hx, by rw [← hxeq], by rw [← hxeq], by rw [← hxeq],
          by rw [← hxeq], by rw [← hxeq], Or.inr (by rw [← hxeq])⟩
      · rw [if_neg hid] at hxeq
        exact ⟨x, hx, by rw [hxeq], by rw [hxeq], by rw [hxeq],
          by rw [hxeq], by rw [hxeq], Or.inl (by rw [hxeq])⟩
    · have hmb0 : mb0 ∈ findActiveMember db.members t s := by
        rw [hf]
        exact List.mem_singleton.mpr rfl
      have hsplit := List.mem_filter.mp hmb0
      have hpred := hsplit.2
      simp only [Bool.and_eq_true, beq_iff_eq] at hpred
      refine ⟨{ mb0 with last_read_at := some now }, ?_, hpred.1.1, hpred.1.2, ?_⟩
      · rw [hmem]
        exact List.mem_map.mpr ⟨mb0, hsplit.1, by rw [if_pos (by simp)]⟩
      · rw [hmsg]
  · intro members topic user now out hout x1 hx1
    unfold socket_mark_as_read at hout
    cases hfl : members.filter (fun mb => mb.topic_id == topic && mb.user_id == user) with
    | nil =>
      rw [hfl] at hout
      have : members = out := Option.some.inj hout
      subst this
      exact ⟨x1, hx1, rfl, rfl, rfl, rfl, rfl, Or.inl rfl⟩
    | cons mb0 tail =>
      cases tail with
      | cons y ys =>
        rw [hfl] at hout
        exact absurd hout (by simp)
      | nil =>
        rw [hfl] at hout
        have hmap := Option.some.inj hout
        rw [← hmap] at hx1
        rcases List.mem_map.mp hx1 with ⟨x, hx, hxeq⟩
        by_cases hid : (x.id == mb0.id) = true
        · rw [if_pos hid] at hxeq
          exact ⟨x, hx, by rw [← hxeq], by rw [← hxeq], by rw [← hxeq],
            by rw [← hxeq], by rw [← hxeq], Or.inr (by rw [← hxeq])⟩
        · rw [if_neg hid] at hxeq
          exact ⟨x, hx, by rw [hxeq], by rw [hxeq], by rw [hxeq],
            by rw [hxeq], by rw [hxeq], Or.inl (by rw [hxeq])⟩
  · intro msgs t m1 m2 h
    rw [h]
  · intro db rooms s t c
    exact (socket_send_message_preserves db rooms s t c).1

set_option maxRecDepth 4096 in
/-- Witness for c10_last_read_frame: after the fixture create_message run the
sender's membership row carries the new message's created_at as last_read_at. -/
theorem c10_last_read_frame_witness :
    ∃ x1 ∈ (create_message fixtureStore 9 "hi" none [] [] 1 100 50).1.members,
      x1.topic_id = 9 ∧ x1.user_id = 1 ∧
      x1.last_read_at =
        some (TopicMessage.mk 100 9 (some 1) "hi" none false false 50).created_at :=
  (c10_last_read_frame.2.1 fixtureStore 9 "hi" none [] [] 1 100 50
    (create_message fixtureStore 9 "hi" none [] [] 1 100 50).1
    (TopicMessage.mk 100 9 (some 1) "hi" none false false 50)
    [Dispatch.mk "ep" "A" "hi" "T"] (by decide)).2

/-- Counterexample to C3 as stated: in the direct-message module, reacting to
message 5 as user 7 with a first and then a second, different emoji leaves TWO
reaction rows for the pair (5, 7). -/
theorem c3_counterexample :
    dm_add_reaction [] 1 5 7 "a" = some [⟨1, 5, 7, "a"⟩] ∧
    dm_add_reaction [⟨1, 5, 7, "a"⟩] 2 5 7 "b" =
      some [⟨1, 5, 7, "a"⟩, ⟨2, 5, 7, "b"⟩] ∧
    dmPairCount [⟨1, 5, 7, "a"⟩, ⟨2, 5, 7, "b"⟩] 5 7 = 2 := by
  refine ⟨?_, ?_, ?_⟩ <;> rfl

end AIWorkspace
